import Mathlib

/-!
Verification development for the typemux-cc LSP multiplexing proxy.

The Rust sources are shallowly embedded: document text is a list of Unicode
code points (Nat), byte offsets are computed with the UTF-8 width of each
code point, and the stateful proxy handlers become explicit state-passing
functions.  Fallible code returns Except values mirroring the Rust Result.
-/

/-- The error taxonomy of src/error.rs.  Only the payload of InvalidMessage
(the ProtocolSemantic class of the spec) is relevant to the claims; the
other variants are carried without payloads. -/
inductive ProxyError where
  | Io : ProxyError
  | JsonErr : ProxyError
  | InvalidMessage : String → ProxyError
  | Backend : ProxyError
  | Framing : ProxyError
  | Venv : ProxyError
deriving DecidableEq, Repr

instance exceptDecEq (ε α : Type) [DecidableEq ε] [DecidableEq α] :
    DecidableEq (Except ε α) := fun x y =>
  match x, y with
  | .ok a, .ok b =>
    if h : a = b then .isTrue (by rw [h]) else .isFalse (by intro hc; cases hc; exact h rfl)
  | .error a, .error b =>
    if h : a = b then .isTrue (by rw [h]) else .isFalse (by intro hc; cases hc; exact h rfl)
  | .ok _, .error _ => .isFalse (by intro hc; cases hc)
  | .error _, .ok _ => .isFalse (by intro hc; cases hc)

/-- UTF-8 byte width of a Unicode code point, as Rust char len_utf8. -/
def utf8_len (c : Nat) : Nat :=
  if c < 0x80 then 1 else if c < 0x800 then 2 else if c < 0x10000 then 3 else 4

/-- UTF-16 code-unit width of a Unicode code point, as Rust char len_utf16:
a code point at or above 0x10000 is a surrogate pair and counts as two. -/
def utf16_len (c : Nat) : Nat :=
  if c < 0x10000 then 1 else 2

/-- Total UTF-8 byte length of a code-point sequence. -/
def utf8_bytes : List Nat → Nat
  | [] => 0
  | c :: cs => utf8_len c + utf8_bytes cs

/-- Total UTF-16 code-unit length of a code-point sequence. -/
def utf16_width : List Nat → Nat
  | [] => 0
  | c :: cs => utf16_len c + utf16_width cs

/-- Code points of a Lean string (the UTF-8 text of the Rust side). -/
def codepoints (s : String) : List Nat :=
  s.toList.map Char.toNat

/-- Error payload of position_to_offset for an out-of-range line.  The
source formats the offending line, the last line and the character into the
message; the numeric formatting is elided here. -/
def pos_out_of_range_msg : String := "Position out of range"

/-- find_offset_in_line of src/proxy.rs (lines 1327-1345), expressed on the
code points of the target line and returning the byte offset relative to
the line start (the caller adds line_start).  The source walks the line
summing len_utf16 per code point and returns the byte index of the first
code point at or past the requested UTF-16 column, clamping to the end of
the line; the running comparison utf16_offset >= character is carried here
as the truncated-subtraction remainder reaching zero. -/
def find_offset_in_line : List Nat → Nat → Nat
  | [], _ => 0
  | c :: rest, character =>
    if character = 0 then 0
    else utf8_len c + find_offset_in_line rest (character - utf16_len c)

/-- Loop body of position_to_offset of src/proxy.rs (lines 1296-1323).
The source scans char_indices counting newline bytes: once the start of the
requested line is reached, the line content is the run of code points up to
the next newline (or the end of the text) and find_offset_in_line resolves
the column inside it; running past the end of the text with lines still to
skip is the out-of-range error.  Here line counts down instead of up and
acc carries the byte offset of the current scan position. -/
def position_to_offset_aux : List Nat → Nat → Nat → Nat → Except ProxyError Nat
  | cs, 0, character, acc =>
    .ok (acc + find_offset_in_line (cs.takeWhile (fun c => c ≠ 10)) character)
  | [], _ + 1, _, _ => .error (.InvalidMessage pos_out_of_range_msg)
  | c :: rest, l + 1, character, acc =>
    if c = 10 then position_to_offset_aux rest l character (acc + 1)
    else position_to_offset_aux rest (l + 1) character (acc + utf8_len c)

/-- position_to_offset of src/proxy.rs: convert an LSP (line, character)
position, with character counted in UTF-16 code units, to a byte offset. -/
def position_to_offset (text : List Nat) (line character : Nat) : Except ProxyError Nat :=
  position_to_offset_aux text line character 0

/-- Number of newline code points; the lines addressable by
position_to_offset are exactly 0 .. newline_count. -/
def newline_count : List Nat → Nat
  | [] => 0
  | c :: cs => (if c = 10 then 1 else 0) + newline_count cs

/-- Drop everything up to and including the first newline. -/
def drop_line (cs : List Nat) : List Nat :=
  (cs.dropWhile (fun c => c ≠ 10)).drop 1

/-- Code points of the requested line (newline excluded). -/
def line_chars : List Nat → Nat → List Nat
  | cs, 0 => cs.takeWhile (fun c => c ≠ 10)
  | cs, l + 1 => line_chars (drop_line cs) l

/-- Byte offset of the start of the requested line. -/
def line_start : List Nat → Nat → Nat
  | _, 0 => 0
  | cs, l + 1 => utf8_bytes (cs.takeWhile (fun c => c ≠ 10)) + 1 + line_start (drop_line cs) l

theorem utf16_len_pos (c : Nat) : 0 < utf16_len c := by
  unfold utf16_len; split <;> omega

theorem find_offset_in_line_boundary (cs : List Nat) (character : Nat) :
    ∃ k, k ≤ cs.length ∧ find_offset_in_line cs character = utf8_bytes (cs.take k) := by
  induction cs generalizing character with
  | nil => exact ⟨0, by simp [find_offset_in_line, utf8_bytes]⟩
  | cons c rest ih =>
    by_cases h0 : character = 0
    · exact ⟨0, by simp [find_offset_in_line, h0, utf8_bytes]⟩
    · obtain ⟨k, hk, heq⟩ := ih (character - utf16_len c)
      refine ⟨k + 1, by simpa using Nat.succ_le_succ hk, ?_⟩
      simp [find_offset_in_line, h0, utf8_bytes, heq]

theorem find_offset_in_line_clamp (cs : List Nat) (character : Nat)
    (h : utf16_width cs ≤ character) :
    find_offset_in_line cs character = utf8_bytes cs := by
  induction cs generalizing character with
  | nil => simp [find_offset_in_line, utf8_bytes]
  | cons c rest ih =>
    have hpos := utf16_len_pos c
    have hw : utf16_len c + utf16_width rest ≤ character := by
      simpa [utf16_width] using h
    have h0 : character ≠ 0 := by omega
    have hrest : utf16_width rest ≤ character - utf16_len c := by omega
    simp [find_offset_in_line, h0, utf8_bytes, ih _ hrest]

theorem takeWhile_length_le (p : Nat → Bool) (l : List Nat) :
    (l.takeWhile p).length ≤ l.length := by
  induction l with
  | nil => simp
  | cons c rest ih =>
    by_cases hp : p c
    · simpa [List.takeWhile_cons, hp] using Nat.succ_le_succ ih
    · simp [List.takeWhile_cons, hp]

theorem takeWhile_take_eq_take (p : Nat → Bool) (l : List Nat) (j : Nat)
    (h : j ≤ (l.takeWhile p).length) :
    (l.takeWhile p).take j = l.take j := by
  induction l generalizing j with
  | nil => simp [List.takeWhile]
  | cons c rest ih =>
    by_cases hp : p c
    · cases j with
      | zero => simp
      | succ j =>
        have hj : j ≤ (rest.takeWhile p).length := by
          simpa [List.takeWhile_cons, hp] using h
        simp [List.takeWhile_cons, hp, ih j hj]
    · have : j = 0 := by
        simp [List.takeWhile_cons, hp] at h
        omega
      simp [this]

theorem position_to_offset_aux_boundary (cs : List Nat) :
    ∀ line character acc, line ≤ newline_count cs →
      ∃ k, k ≤ cs.length ∧
        position_to_offset_aux cs line character acc = .ok (acc + utf8_bytes (cs.take k)) := by
  induction cs with
  | nil =>
    intro line character acc hline
    have h0 : line = 0 := by simpa [newline_count] using hline
    subst h0
    exact ⟨0, by simp [position_to_offset_aux, find_offset_in_line, utf8_bytes]⟩
  | cons c rest ih =>
    intro line character acc hline
    cases line with
    | zero =>
      obtain ⟨j, hj, heq⟩ :=
        find_offset_in_line_boundary ((c :: rest).takeWhile (fun x => x ≠ 10)) character
      refine ⟨j, le_trans hj (takeWhile_length_le _ _), ?_⟩
      rw [show position_to_offset_aux (c :: rest) 0 character acc =
        .ok (acc + find_offset_in_line ((c :: rest).takeWhile (fun x => x ≠ 10)) character)
        from rfl, heq, takeWhile_take_eq_take _ _ _ hj]
    | succ l =>
      by_cases hc : c = 10
      · subst hc
        have hl : l ≤ newline_count rest := by
          simp [newline_count] at hline
          omega
        obtain ⟨k, hk, heq⟩ := ih l character (acc + 1) hl
        refine ⟨k + 1, by simpa using Nat.succ_le_succ hk, ?_⟩
        rw [show position_to_offset_aux (10 :: rest) (l + 1) character acc =
          position_to_offset_aux rest l character (acc + 1) by simp [position_to_offset_aux]]
        rw [heq]
        have : acc + 1 + utf8_bytes (rest.take k) =
            acc + utf8_bytes ((10 :: rest).take (k + 1)) := by
          simp [utf8_bytes, utf8_len]
          omega
        rw [this]
      · have hl : l + 1 ≤ newline_count rest := by
          simpa [newline_count, hc] using hline
        obtain ⟨k, hk, heq⟩ := ih (l + 1) character (acc + utf8_len c) hl
        refine ⟨k + 1, by simpa using Nat.succ_le_succ hk, ?_⟩
        rw [show position_to_offset_aux (c :: rest) (l + 1) character acc =
          position_to_offset_aux rest (l + 1) character (acc + utf8_len c) by
            simp [position_to_offset_aux, hc]]
        rw [heq]
        have : acc + utf8_len c + utf8_bytes (rest.take k) =
            acc + utf8_bytes ((c :: rest).take (k + 1)) := by
          simp [utf8_bytes]
          omega
        rw [this]

theorem position_to_offset_aux_out_of_range (cs : List Nat) :
    ∀ line character acc, newline_count cs < line →
      position_to_offset_aux cs line character acc =
        .error (.InvalidMessage pos_out_of_range_msg) := by
  induction cs with
  | nil =>
    intro line character acc hline
    cases line with
    | zero => simp [newline_count] at hline
    | succ l => rfl
  | cons c rest ih
  =>
    intro line character acc hline
    cases line with
    | zero => omega
    | succ l =>
      by_cases hc : c = 10
      · subst hc
        have hl : newline_count rest < l := by
          simp [newline_count] at hline
          omega
        rw [show position_to_offset_aux (10 :: rest) (l + 1) character acc =
          position_to_offset_aux rest l character (acc + 1) by simp [position_to_offset_aux]]
        exact ih l character (acc + 1) hl
      · have hl : newline_count rest < l + 1 := by
          simpa [newline_count, hc] using hline
        rw [show position_to_offset_aux (c :: rest) (l + 1) character acc =
          position_to_offset_aux rest (l + 1) character (acc + utf8_len c) by
            simp [position_to_offset_aux, hc]]
        exact ih (l + 1) character (acc + utf8_len c) hl

theorem position_to_offset_aux_clamp (cs : List Nat) :
    ∀ line character acc, line ≤ newline_count cs →
      utf16_width (line_chars cs line) ≤ character →
      position_to_offset_aux cs line character acc =
        .ok (acc + line_start cs line + utf8_bytes (line_chars cs line)) := by
  induction cs with
  | nil =>
    intro line character acc hline hchar
    have h0 : line = 0 := by simpa [newline_count] using hline
    subst h0
    simp [position_to_offset_aux, line_chars, line_start,
      find_offset_in_line_clamp _ _ (by simpa [line_chars] using hchar)]
  | cons c rest ih =>
    intro line character acc hline hchar
    cases line with
    | zero =>
      rw [show position_to_offset_aux (c :: rest) 0 character acc =
        .ok (acc + find_offset_in_line ((c :: rest).takeWhile (fun x => x ≠ 10)) character)
        from rfl]
      rw [find_offset_in_line_clamp _ _ (by simpa [line_chars] using hchar)]
      simp [line_chars, line_start]
    | succ l =>
      by_cases hc : c = 10
      · subst hc
        have hl : l ≤ newline_count rest := by
          simp [newline_count] at hline
          omega
        have hdrop : drop_line (10 :: rest) = rest := by
          simp [drop_line, List.dropWhile_cons]
        have hch : utf16_width (line_chars rest l) ≤ character := by
          simpa [line_chars, hdrop] using hchar
        rw [show position_to_offset_aux (10 :: rest) (l + 1) character acc =
          position_to_offset_aux rest l character (acc + 1) by simp [position_to_offset_aux]]
        rw [ih l character (acc + 1) hl hch]
        have hstart : line_start (10 :: rest) (l + 1) = 1 + line_start rest l := by
          simp [line_start, hdrop, List.takeWhile_cons, utf8_bytes]
        have hchars : line_chars (10 :: rest) (l + 1) = line_chars rest l := by
          simp [line_chars, hdrop]
        rw [hstart, hchars]
        simp only [Except.ok.injEq]
        omega
      · have hl : l + 1 ≤ newline_count rest := by
          simpa [newline_count, hc] using hline
        have hdrop : drop_line (c :: rest) = drop_line rest := by
          simp [drop_line, List.dropWhile_cons, hc]
        have hch : utf16_width (line_chars rest (l + 1)) ≤ character := by
          simpa [line_chars, hdrop] using hchar
        rw [show position_to_offset_aux (c :: rest) (l + 1) character acc =
          position_to_offset_aux rest (l + 1) character (acc + utf8_len c) by
            simp [position_to_offset_aux, hc]]
        rw [ih (l + 1) character (acc + utf8_len c) hl hch]
        have hstart : line_start (c :: rest) (l + 1) =
            utf8_len c + line_start rest (l + 1) := by
          simp [line_start, hdrop, List.takeWhile_cons, hc, utf8_bytes]
          omega
        have hchars : line_chars (c :: rest) (l + 1) = line_chars rest (l + 1) := by
          simp [line_chars, hdrop]
        rw [hstart, hchars]
        simp only [Except.ok.injEq]
        omega

/-- C7: for every text and LSP position whose line is within the text, the
position mapper returns a byte offset at a character boundary (the UTF-8
length of a prefix of the text), with the character column counted in
UTF-16 code units per code point; a column past the end of the line clamps
to the end of that line; a line past the last line yields the
ProtocolSemantic (InvalidMessage) error. -/
theorem position_to_offset_spec (text : List Nat) (line character : Nat) :
    (line ≤ newline_count text →
      (∃ k, k ≤ text.length ∧
        position_to_offset text line character = .ok (utf8_bytes (text.take k))) ∧
      (utf16_width (line_chars text line) ≤ character →
        position_to_offset text line character =
          .ok (line_start text line + utf8_bytes (line_chars text line)))) ∧
    (newline_count text < line →
      position_to_offset text line character =
        .error (.InvalidMessage pos_out_of_range_msg)) := by
  refine ⟨fun hline => ⟨?_, fun hchar => ?_⟩, fun hline => ?_⟩
  · obtain ⟨k, hk, heq⟩ := position_to_offset_aux_boundary text line character 0 hline
    exact ⟨k, hk, by simpa [position_to_offset] using heq⟩
  · have h := position_to_offset_aux_clamp text line character 0 hline hchar
    simpa [position_to_offset] using h
  · exact position_to_offset_aux_out_of_range text line character 0 hline

/-- Concrete text of the surrogate-pair boundary scenario of the spec. -/
def c7_text : List Nat := codepoints "a😀b\n"

/-- Witness for C7: on the text a-emoji-b-newline, position (0, 3) resolves
inside line 0 (the emoji counting as two UTF-16 units) to byte offset 5,
which is the UTF-8 length of a prefix of the text. -/
theorem position_to_offset_spec_witness :
    (∃ k, k ≤ c7_text.length ∧
      position_to_offset c7_text 0 3 = .ok (utf8_bytes (c7_text.take k))) ∧
    position_to_offset c7_text 0 3 = .ok 5 :=
  ⟨((position_to_offset_spec c7_text 0 3).1 (by decide)).1, by decide⟩

/-- Shallow model of the serde_json value tree as used by the proxy.  JSON
numbers appear in the sources only through as_i64 and as_u64, so they are
carried as integers. -/
inductive Json where
  | null : Json
  | bool : Bool → Json
  | num : Int → Json
  | str : String → Json
  | arr : List Json → Json
  | obj : List (String × Json) → Json

/-- Field lookup on a JSON object (serde_json Value get by key). -/
def Json.get : Json → String → Option Json
  | .obj fields, key => fields.lookup key
  | _, _ => none

/-- serde_json as_str. -/
def Json.as_str : Json → Option String
  | .str s => some s
  | _ => none

/-- serde_json as_i64. -/
def Json.as_i64 : Json → Option Int
  | .num n => some n
  | _ => none

/-- serde_json as_u64: defined only on non-negative numbers. -/
def Json.as_u64 : Json → Option Nat
  | .num n => if 0 ≤ n then some n.toNat else none
  | _ => none

/-- serde_json as_array. -/
def Json.as_array : Json → Option (List Json)
  | .arr xs => some xs
  | _ => none

/-- Lift an Option to Except with the given error (Rust ok_or_else). -/
def ok_or {α : Type} (o : Option α) (e : ProxyError) : Except ProxyError α :=
  match o with
  | some a => .ok a
  | none => .error e

/-- Code points of the first prefix of the text occupying n UTF-8 bytes.
On the char boundaries produced by position_to_offset this is exact; the
Rust String indexing would panic off a boundary, which cannot occur here. -/
def take_bytes : List Nat → Nat → List Nat
  | [], _ => []
  | c :: rest, n => if utf8_len c ≤ n then c :: take_bytes rest (n - utf8_len c) else []

/-- Code points remaining after dropping n UTF-8 bytes. -/
def drop_bytes : List Nat → Nat → List Nat
  | [], _ => []
  | c :: rest, n => if utf8_len c ≤ n then drop_bytes rest (n - utf8_len c) else c :: rest

/-- Rust String replace_range over byte offsets. -/
def replace_range (text : List Nat) (start_offset end_offset : Nat)
    (new_text : List Nat) : List Nat :=
  take_bytes text start_offset ++ new_text ++ drop_bytes text end_offset

/-- Error payload for an inverted offset range in apply_incremental_change
(the source formats both offsets into the message). -/
def invalid_range_msg (start_offset end_offset : Nat) : String :=
  "Invalid range: start offset " ++ toString start_offset ++
    " greater than end offset " ++ toString end_offset

/-- apply_incremental_change of src/proxy.rs (lines 1243-1294): extract the
range endpoints, convert both to byte offsets, reject an inverted pair of
offsets, and otherwise splice the replacement in.  An error never touches
the text. -/
def apply_incremental_change (text : List Nat) (range : Json) (new_text : List Nat) :
    Except ProxyError (List Nat) := do
  let start ← ok_or (range.get "start") (.InvalidMessage "didChange range missing start")
  let stop ← ok_or (range.get "end") (.InvalidMessage "didChange range missing end")
  let start_line ← ok_or ((start.get "line").bind Json.as_u64)
    (.InvalidMessage "didChange start missing line")
  let start_char ← ok_or ((start.get "character").bind Json.as_u64)
    (.InvalidMessage "didChange start missing character")
  let end_line ← ok_or ((stop.get "line").bind Json.as_u64)
    (.InvalidMessage "didChange end missing line")
  let end_char ← ok_or ((stop.get "character").bind Json.as_u64)
    (.InvalidMessage "didChange end missing character")
  let start_offset ← position_to_offset text start_line start_char
  let end_offset ← position_to_offset text end_line end_char
  if end_offset < start_offset then
    .error (.InvalidMessage (invalid_range_msg start_offset end_offset))
  else
    .ok (replace_range text start_offset end_offset new_text)

/-- The range object of an incremental change with the given endpoints. -/
def mk_range (sl sc el ec : Nat) : Json :=
  Json.obj [("start", Json.obj [("line", Json.num sl), ("character", Json.num sc)]),
            ("end", Json.obj [("line", Json.num el), ("character", Json.num ec)])]

/-- Text of the C2 counterexample. -/
def c2_text : List Nat := codepoints "ab"

/-- C2 counterexample: on the text ab, the range from (0,5) to (0,3) has a
start position strictly beyond its end position, yet applying the change
with replacement X succeeds and alters the text (both columns clamp to the
end of line 0, so the inverted-range check on byte offsets does not fire
and the change is applied as an insertion). -/
theorem apply_incremental_change_inverted_ok :
    apply_incremental_change c2_text (mk_range 0 5 0 3) (codepoints "X") =
      .ok (codepoints "abX") ∧ codepoints "abX" ≠ c2_text := by
  constructor
  · rfl
  · decide

theorem as_u64_coe (n : Nat) : Json.as_u64 (Json.num n) = some n := by
  simp [Json.as_u64]

theorem utf8_len_pos (c : Nat) : 0 < utf8_len c := by
  unfold utf8_len
  split
  · omega
  · split
    · omega
    · split <;> omega

theorem take_bytes_boundary (text : List Nat) :
    ∀ k, k ≤ text.length → take_bytes text (utf8_bytes (text.take k)) = text.take k := by
  induction text with
  | nil => intro k _; simp [take_bytes, utf8_bytes]
  | cons c rest ih =>
    intro k hk
    cases k with
    | zero =>
      have hc := utf8_len_pos c
      show take_bytes (c :: rest) (utf8_bytes []) = []
      rw [show utf8_bytes [] = 0 from rfl]
      unfold take_bytes
      rw [if_neg (by omega)]
    | succ k =>
      have hk2 : k ≤ rest.length := by simpa using hk
      show take_bytes (c :: rest) (utf8_bytes (c :: rest.take k)) = c :: rest.take k
      rw [show utf8_bytes (c :: rest.take k) = utf8_len c + utf8_bytes (rest.take k)
        from rfl]
      unfold take_bytes
      rw [if_pos (Nat.le_add_right _ _), Nat.add_sub_cancel_left, ih k hk2]

theorem drop_bytes_boundary (text : List Nat) :
    ∀ k, k ≤ text.length → drop_bytes text (utf8_bytes (text.take k)) = text.drop k := by
  induction text with
  | nil => intro k _; simp [drop_bytes, utf8_bytes]
  | cons c rest ih =>
    intro k hk
    cases k with
    | zero =>
      have hc := utf8_len_pos c
      show drop_bytes (c :: rest) (utf8_bytes []) = c :: rest
      rw [show utf8_bytes [] = 0 from rfl]
      unfold drop_bytes
      rw [if_neg (by omega)]
    | succ k =>
      have hk2 : k ≤ rest.length := by simpa using hk
      show drop_bytes (c :: rest) (utf8_bytes (c :: rest.take k)) = rest.drop k
      rw [show utf8_bytes (c :: rest.take k) = utf8_len c + utf8_bytes (rest.take k)
        from rfl]
      unfold drop_bytes
      rw [if_pos (Nat.le_add_right _ _), Nat.add_sub_cancel_left, ih k hk2]

/-- C2 (amended): given a range whose endpoints both convert to byte
offsets, applying the incremental change fails with the ProtocolSemantic
(InvalidMessage) invalid-range error, producing no edited text, exactly
when the start byte offset (after end-of-line clamping) strictly exceeds
the end byte offset; otherwise it succeeds with the replacement spliced
between the two offsets, so a positionally inverted range whose endpoints
clamp to the same character-boundary offset is applied as an insertion at
that offset, leaving the bytes on both sides unaltered. -/
theorem apply_incremental_change_invalid_range (text : List Nat) (sl sc el ec : Nat)
    (new_text : List Nat) (so eo : Nat)
    (hs : position_to_offset text sl sc = .ok so)
    (he : position_to_offset text el ec = .ok eo) :
    (eo < so →
      apply_incremental_change text (mk_range sl sc el ec) new_text =
        .error (.InvalidMessage (invalid_range_msg so eo))) ∧
    (so ≤ eo →
      apply_incremental_change text (mk_range sl sc el ec) new_text =
        .ok (replace_range text so eo new_text)) ∧
    (∀ k, k ≤ text.length → so = eo → so = utf8_bytes (text.take k) →
      apply_incremental_change text (mk_range sl sc el ec) new_text =
        .ok (text.take k ++ new_text ++ text.drop k)) := by
  have g1 : (mk_range sl sc el ec).get "start" =
      some (Json.obj [("line", Json.num sl), ("character", Json.num sc)]) := rfl
  have g2 : (mk_range sl sc el ec).get "end" =
      some (Json.obj [("line", Json.num el), ("character", Json.num ec)]) := rfl
  have g3 : (Json.obj [("line", Json.num sl), ("character", Json.num sc)]).get "line" =
      some (Json.num sl) := rfl
  have g4 : (Json.obj [("line", Json.num sl), ("character", Json.num sc)]).get "character" =
      some (Json.num sc) := rfl
  have g5 : (Json.obj [("line", Json.num el), ("character", Json.num ec)]).get "line" =
      some (Json.num el) := rfl
  have g6 : (Json.obj [("line", Json.num el), ("character", Json.num ec)]).get "character" =
      some (Json.num ec) := rfl
  have hred : apply_incremental_change text (mk_range sl sc el ec) new_text =
      if eo < so then .error (.InvalidMessage (invalid_range_msg so eo))
      else .ok (replace_range text so eo new_text) := by
    simp only [apply_incremental_change, g1, g2, g3, g4, g5, g6, ok_or, Option.bind,
      as_u64_coe, bind, Except.bind, hs, he]
  refine ⟨fun hlt => ?_, fun hle => ?_, fun k hk heq hb => ?_⟩
  · rw [hred, if_pos hlt]
  · rw [hred, if_neg (by omega)]
  · rw [hred, if_neg (by omega)]
    rw [show replace_range text so eo new_text =
      take_bytes text so ++ new_text ++ drop_bytes text eo from rfl]
    rw [← heq, hb, take_bytes_boundary text k hk, drop_bytes_boundary text k hk]

/-- Witness for the amended C2 at two inputs: on the text a-newline-b, the
range from (1,0) to (0,0) resolves to offsets 2 and 0 and fails with the
invalid-range error; on the text ab, the inverted range (0,5)..(0,3)
clamps both endpoints to the boundary offset 2 (the whole text as prefix)
and inserts the replacement there with both sides intact. -/
theorem apply_incremental_change_invalid_range_witness :
    apply_incremental_change (codepoints "a\nb") (mk_range 1 0 0 0) [] =
      .error (.InvalidMessage (invalid_range_msg 2 0)) ∧
    apply_incremental_change (codepoints "ab") (mk_range 0 5 0 3) (codepoints "X") =
      .ok ((codepoints "ab").take 2 ++ codepoints "X" ++ (codepoints "ab").drop 2) :=
  ⟨(apply_incremental_change_invalid_range (codepoints "a\nb") 1 0 0 0 [] 2 0
      (by decide) (by decide)).1 (by decide),
   (apply_incremental_change_invalid_range (codepoints "ab") 0 5 0 3 (codepoints "X") 2 2
      (by decide) (by decide)).2.2 2 (by decide) rfl (by decide)⟩

/-- LSP request id (src/message.rs RpcId): integer or string. -/
inductive RpcId where
  | num : Int → RpcId
  | str : String → RpcId
deriving DecidableEq, Repr

/-- JSON-RPC error object (src/message.rs RpcError). -/
structure RpcError where
  code : Int
  message : String
  data : Option Json

/-- JSON-RPC message record (src/message.rs RpcMessage). -/
structure RpcMessage where
  jsonrpc : String
  id : Option RpcId
  method : Option String
  params : Option Json
  result : Option Json
  error : Option RpcError

/-- is_request of src/message.rs: id present and method present. -/
def RpcMessage.is_request (m : RpcMessage) : Bool :=
  m.id.isSome && m.method.isSome

/-- is_notification of src/message.rs: id absent and method present. -/
def RpcMessage.is_notification (m : RpcMessage) : Bool :=
  m.id.isNone && m.method.isSome

/-- is_response of src/message.rs: id present and method absent. -/
def RpcMessage.is_response (m : RpcMessage) : Bool :=
  m.id.isSome && m.method.isNone

/-- method_name of src/message.rs. -/
def RpcMessage.method_name (m : RpcMessage) : Option String :=
  m.method

/-- error_response of src/message.rs: the internal-error (-32603) reply the
proxy surfaces to the client for proxy-level failures. -/
def RpcMessage.error_response (request : RpcMessage) (message : String) : RpcMessage :=
  { jsonrpc := "2.0", id := request.id, method := none, params := none, result := none,
    error := some { code := -32603, message := message, data := none } }

/-- Association-list model of HashMap lookup. -/
def alookup {α β : Type} [DecidableEq α] : List (α × β) → α → Option β
  | [], _ => none
  | (k, v) :: rest, key => if k = key then some v else alookup rest key

/-- Association-list model of HashMap insert (replace or append). -/
def ainsert {α β : Type} [DecidableEq α] : List (α × β) → α → β → List (α × β)
  | [], key, v => [(key, v)]
  | (k, w) :: rest, key, v =>
    if k = key then (key, v) :: rest else (k, w) :: ainsert rest key v

/-- Association-list model of HashMap remove. -/
def aerase {α β : Type} [DecidableEq α] : List (α × β) → α → List (α × β)
  | [], _ => []
  | (k, w) :: rest, key => if k = key then rest else (k, w) :: aerase rest key

/-- Open document entry of src/state.rs.  The text is the code-point list;
venv is the path resolved at open time. -/
structure OpenDocument where
  language_id : String
  version : Int
  text : List Nat
  venv : Option String

/-- Warmup state machine of the backend pool (Warming or Ready). -/
inductive WarmupState where
  | warming : WarmupState
  | ready : WarmupState
deriving DecidableEq, Repr

/-- Backend instance of the pool, per src/proxy/client_dispatch.rs usage:
writer, child and reader_task are process and task handles (their effects
are modelled as outputs), and warmup_deadline is a timer driving the
Warming to Ready transition outside the handlers modelled here. -/
structure BackendInstanceM where
  venv_path : String
  session : Nat
  last_used : Nat
  next_id : Nat
  warmup_state : WarmupState
  warmup_queue : List RpcMessage

/-- Modelled from the spec: is_warming of the warmup-aware BackendInstance
(its backend_pool source is not under src; states are Warming and Ready). -/
def BackendInstanceM.is_warming (inst : BackendInstanceM) : Bool :=
  inst.warmup_state == WarmupState.warming

/-- Backend pool of src/backend_pool.rs: venv-keyed instances, capacity,
TTL and the monotone session counter.  The inbox channel endpoints carry no
state here; inbox messages are inputs of the event loop. -/
structure BackendPoolM where
  backends : List (String × BackendInstanceM)
  max_backends : Nat
  backend_ttl : Option Nat
  next_session : Nat

/-- next_session_id of src/backend_pool.rs: increment and return. -/
def BackendPoolM.next_session_id (pool : BackendPoolM) : Nat × BackendPoolM :=
  (pool.next_session + 1, { pool with next_session := pool.next_session + 1 })

/-- is_full of src/backend_pool.rs. -/
def BackendPoolM.is_full (pool : BackendPoolM) : Bool :=
  pool.max_backends ≤ pool.backends.length

/-- insert of src/backend_pool.rs. -/
def BackendPoolM.insert_backend (pool : BackendPoolM) (venv : String)
    (inst : BackendInstanceM) : BackendPoolM :=
  { pool with backends := ainsert pool.backends venv inst }

/-- remove of src/backend_pool.rs. -/
def BackendPoolM.remove_backend (pool : BackendPoolM) (venv : String) : BackendPoolM :=
  { pool with backends := aerase pool.backends venv }

/-- In-place mutation through get_mut of src/backend_pool.rs. -/
def BackendPoolM.update_backend (pool : BackendPoolM) (venv : String)
    (f : BackendInstanceM → BackendInstanceM) : BackendPoolM :=
  { pool with backends := pool.backends.map (fun e => if e.1 = venv then (e.1, f e.2) else e) }

/-- first_key of src/backend_pool.rs (first key of the map). -/
def BackendPoolM.first_key (pool : BackendPoolM) : Option String :=
  pool.backends.head?.map (·.1)

/-- Pending client-to-backend request entry of src/state.rs. -/
structure PendingRequest where
  backend_session : Nat
  venv_path : String
deriving DecidableEq, Repr

/-- Pending backend-to-client request entry of src/state.rs. -/
structure PendingBackendRequest where
  original_id : RpcId
  venv_path : String
  session : Nat
deriving DecidableEq, Repr

/-- Proxy state of src/state.rs. -/
structure ProxyStateM where
  git_toplevel : Option String
  client_initialize : Option RpcMessage
  open_documents : List (String × OpenDocument)
  pending_requests : List (RpcId × PendingRequest)
  pending_backend_requests : List (RpcId × PendingBackendRequest)
  next_proxy_request_id : Int
  pool : BackendPoolM

/-- ProxyState::new of src/state.rs: the proxy-id counter starts at -1. -/
def ProxyStateM.new (max_backends : Nat) (backend_ttl : Option Nat) : ProxyStateM :=
  { git_toplevel := none, client_initialize := none, open_documents := [],
    pending_requests := [], pending_backend_requests := [],
    next_proxy_request_id := -1,
    pool := { backends := [], max_backends := max_backends,
              backend_ttl := backend_ttl, next_session := 0 } }

/-- alloc_proxy_request_id of src/state.rs: return the current counter as
the id and decrement the counter. -/
def alloc_proxy_request_id (s : ProxyStateM) : RpcId × ProxyStateM :=
  (RpcId.num s.next_proxy_request_id,
   { s with next_proxy_request_id := s.next_proxy_request_id - 1 })

/-- Observable effects of a handler: a frame written to the client or to
the backend at the given venv. -/
inductive Output where
  | to_client : RpcMessage → Output
  | to_backend : String → RpcMessage → Output

/-- Outcomes of the external collaborators consumed by the handlers:
url parsing and to_file_path of the url crate, the venv resolver probe,
process spawn success, initialize-handshake success (the read loop of
src/proxy/initialization.rs against the child process), the replay
path-descendant fallback test of restore_documents_to_backend, the
warmup-timeout-is-zero configuration, and the clock. -/
structure Oracles where
  parse_url : String → Option String
  to_file : String → Option String
  resolve_venv : String → Except ProxyError (Option String)
  spawn_ok : String → Bool
  handshake_ok : String → Bool
  replay_match : String → String → Bool
  warmup_zero : Bool
  now : Nat

/-- extract_text_document_uri of src/proxy/document.rs: params, then
textDocument, then uri as a string, then url parse. -/
def extract_text_document_uri (orc : Oracles) (msg : RpcMessage) : Option String := do
  let params ← msg.params
  let td ← params.get "textDocument"
  let uri ← (td.get "uri").bind Json.as_str
  orc.parse_url uri

/-- venv_for_uri of src/proxy/document.rs: the venv cached for the URI. -/
def venv_for_uri (s : ProxyStateM) (url : String) : Option String :=
  (alookup s.open_documents url).bind (·.venv)

/-- Body of the didChange loop of src/proxy/document.rs (lines 156-172):
apply each change in order, incrementally when a range is present and as a
full replacement otherwise; a failing incremental change stops the loop
with the text as mutated so far. -/
def apply_changes : List Nat → List Json → List Nat × Option ProxyError
  | text, [] => (text, none)
  | text, change :: rest =>
    match change.get "range" with
    | some range =>
      match (change.get "text").bind Json.as_str with
      | some nt =>
        match apply_incremental_change text range (codepoints nt) with
        | .ok t2 => apply_changes t2 rest
        | .error e => (text, some e)
      | none => apply_changes text rest
    | none =>
      match (change.get "text").bind Json.as_str with
      | some nt => apply_changes (codepoints nt) rest
      | none => apply_changes text rest

/-- handle_did_change of src/proxy/document.rs (lines 135-198): an empty
contentChanges array is ignored; otherwise the changes are applied to the
cached document (if any) and the LSP version is adopted.  The second
component is the propagated error of a failing incremental change. -/
def handle_did_change (orc : Oracles) (s : ProxyStateM) (msg : RpcMessage) :
    ProxyStateM × Option ProxyError :=
  match msg.params with
  | none => (s, none)
  | some params =>
    match params.get "textDocument" with
    | none => (s, none)
    | some td =>
      match (td.get "uri").bind Json.as_str with
      | none => (s, none)
      | some uri_str =>
        match orc.parse_url uri_str with
        | none => (s, none)
        | some url =>
          let version := (td.get "version").bind Json.as_i64
          match params.get "contentChanges" with
          | none => (s, none)
          | some cc =>
            match cc.as_array with
            | none => (s, none)
            | some changes =>
              if changes.isEmpty then (s, none)
              else
                match alookup s.open_documents url with
                | none => (s, none)
                | some doc =>
                  match apply_changes doc.text changes with
                  | (new_text, some e) =>
                    ({ s with open_documents :=
                        ainsert s.open_documents url { doc with text := new_text } }, some e)
                  | (new_text, none) =>
                    let doc1 := { doc with text := new_text }
                    let doc2 := match version with
                      | some v => { doc1 with version := v }
                      | none => doc1
                    ({ s with open_documents := ainsert s.open_documents url doc2 }, none)

/-- The cancelled reply (protocol code -32800) sent to the client for a
pending request whose backend went away. -/
def request_cancelled_response (id : RpcId) (message : String) : RpcMessage :=
  { jsonrpc := "2.0", id := some id, method := none, params := none, result := none,
    error := some { code := -32800, message := message, data := none } }

/-- The empty publishDiagnostics notification of
clear_diagnostics_for_uris in src/proxy/diagnostics.rs (lines 78-88). -/
def empty_diagnostics (uri : String) : RpcMessage :=
  { jsonrpc := "2.0", id := none, method := some "textDocument/publishDiagnostics",
    params := some (Json.obj [("uri", Json.str uri), ("diagnostics", Json.arr [])]),
    result := none, error := none }

/-- notify_backend_error of src/proxy/diagnostics.rs (lines 8-36): the
window/showMessage notification (type 1, error) a caller sends to the
client when backend creation fails (the source formats the underlying
error into the message; elided here).  create_backend_instance itself
emits no such message. -/
def notify_backend_error (venv : String) : RpcMessage :=
  { jsonrpc := "2.0", id := none, method := some "window/showMessage",
    params := some (Json.obj [("type", Json.num 1),
      ("message", Json.str ("typemux-cc: Failed to start LSP backend for " ++ venv))]),
    result := none, error := none }

/-- String form of a code-point list (for replayed open notifications). -/
def text_str (cs : List Nat) : String :=
  String.mk (cs.map Char.ofNat)

/-- The didOpen notification replayed into a fresh backend for a cached
document (src/proxy/initialization.rs lines 269-283). -/
def replay_did_open (uri : String) (doc : OpenDocument) : RpcMessage :=
  { jsonrpc := "2.0", id := none, method := some "textDocument/didOpen",
    params := some (Json.obj [("textDocument", Json.obj
      [("uri", Json.str uri), ("languageId", Json.str doc.language_id),
       ("version", Json.num doc.version), ("text", Json.str (text_str doc.text))])]),
    result := none, error := none }

/-- Pending client-to-backend count against one (venv, session), the
counter handed to lru_venv. -/
def pending_count_for (s : ProxyStateM) (venv : String) (session : Nat) : Nat :=
  (s.pending_requests.filter
    (fun p => p.2.venv_path == venv && p.2.backend_session == session)).length

/-- First entry with the minimal last_used among the given entries. -/
def min_by_last_used : List (String × BackendInstanceM) → Option String
  | [] => none
  | e :: rest => some (min_by_last_used_go e rest)
where min_by_last_used_go : String × BackendInstanceM → List (String × BackendInstanceM) → String
  | e, [] => e.1
  | e, f :: rest =>
    if f.2.last_used < e.2.last_used then min_by_last_used_go f rest
    else min_by_last_used_go e rest

/-- lru_venv of src/backend_pool.rs (lines 92-110): LRU among backends with
no pending requests, else the global LRU. -/
def lru_venv (pool : BackendPoolM) (pending_count : String → Nat → Nat) : Option String :=
  let no_pending := pool.backends.filter (fun e => pending_count e.1 e.2.session == 0)
  match min_by_last_used no_pending with
  | some v => some v
  | none => min_by_last_used pool.backends

/-- Modelled from the spec: evict_lru_backend of the pool_management module
(not under src).  Per the spec eviction section: choose the LRU preferring
zero-pending, remove it from the pool, reply with the protocol cancel code
to every pending client-to-backend request bound to its (venv, session) and
drop those entries, drop the pending backend-to-client entries of the same
pair, publish empty diagnostics for every document bound to that venv, and
fire-and-forget shutdown the instance (a process effect with no state). -/
def evict_lru_backend (s : ProxyStateM) : ProxyStateM × List Output :=
  match lru_venv s.pool (pending_count_for s) with
  | none => (s, [])
  | some venv =>
    match alookup s.pool.backends venv with
    | none => (s, [])
    | some inst =>
      let session := inst.session
      let hit := fun (p : RpcId × PendingRequest) =>
        p.2.venv_path == venv && p.2.backend_session == session
      let cancel_outs := (s.pending_requests.filter hit).map
        (fun p => Output.to_client (request_cancelled_response p.1 "Request cancelled"))
      let diag_outs := s.open_documents.filterMap
        (fun e => if e.2.venv = some venv
          then some (Output.to_client (empty_diagnostics e.1)) else none)
      ({ s with
          pool := s.pool.remove_backend venv,
          pending_requests := s.pending_requests.filter (fun p => !(hit p)),
          pending_backend_requests := s.pending_backend_requests.filter
            (fun p => !(p.2.venv_path == venv && p.2.session == session)) },
       cancel_outs ++ diag_outs)

/-- The initialize request sent to a fresh backend, carrying backend-local
id 1 and the cached client initialize params (src/proxy/initialization.rs
lines 137-144). -/
def backend_init_msg (init_params : Json) : RpcMessage :=
  { jsonrpc := "2.0", id := some (RpcId.num 1), method := some "initialize",
    params := some init_params, result := none, error := none }

/-- The initialized notification sent after the handshake
(src/proxy/initialization.rs lines 199-206). -/
def initialized_notification : RpcMessage :=
  { jsonrpc := "2.0", id := none, method := some "initialized",
    params := some (Json.obj []), result := none, error := none }

/-- restore_documents_to_backend of src/proxy/initialization.rs (lines
230-317): resend a didOpen to the backend for every cached document whose
resolved venv equals this venv, or (fallback) whose filesystem path starts
with the venv parent directory (the replay_match oracle); per-document
write failures are logged and tolerated, so the function always returns
Ok. -/
def restore_documents_to_backend (orc : Oracles) (s : ProxyStateM) (venv : String) :
    List Output :=
  s.open_documents.filterMap
    (fun e => if e.2.venv = some venv || orc.replay_match e.1 venv
      then some (Output.to_backend venv (replay_did_open e.1 e.2)) else none)

/-- create_backend_instance of src/proxy/initialization.rs (lines
113-227): consume a session id first (the counter advances even when the
rest fails), spawn the process, run the initialize handshake (failing with
ProtocolSemantic when no initialize params are cached, and with a Backend
error on a spawn or handshake failure; no window/showMessage is emitted on
this path), restore the cached documents of the venv, split the handle and
return the instance with last_used now and the handle id counter (1 after
spawn, per src/backend.rs; the handshake uses the literal id 1 without
consuming it).  The instance starts Warming unless the warmup timeout is
zero, the initial warmup state the in-src warmup-aware construction of
src/proxy/client_dispatch.rs (lines 46-62) uses. -/
def create_backend_go (orc : Oracles) (s1 : ProxyStateM) (venv : String) (sess : Nat)
    (init_params : Json) :
    Except (ProxyStateM × List Output × ProxyError)
      (ProxyStateM × BackendInstanceM × List Output) :=
  let init_out := Output.to_backend venv (backend_init_msg init_params)
  if orc.handshake_ok venv then
    let outs := init_out :: Output.to_backend venv initialized_notification ::
      restore_documents_to_backend orc s1 venv
    .ok (s1,
         { venv_path := venv, session := sess, last_used := orc.now, next_id := 1,
           warmup_state := if orc.warmup_zero then .ready else .warming,
           warmup_queue := [] },
         outs)
  else .error (s1, [init_out], .Backend)

def create_backend_instance (orc : Oracles) (s : ProxyStateM) (venv : String) :
    Except (ProxyStateM × List Output × ProxyError)
      (ProxyStateM × BackendInstanceM × List Output) :=
  let sp := s.pool.next_session_id
  let s1 := { s with pool := sp.2 }
  if orc.spawn_ok venv then
    match Option.bind s1.client_initialize RpcMessage.params with
    | none => .error (s1, [], .InvalidMessage "No initialize params cached")
    | some init_params => create_backend_go orc s1 venv sp.1 init_params
  else .error (s1, [], .Backend)

/-- Tail of handle_did_open of src/proxy/document.rs (lines 79-123): when
a venv was resolved, create a backend for it (after LRU eviction if the
pool is full) if none exists, or touch it and forward the didOpen. -/
def did_open_create (orc : Oracles) (step : ProxyStateM × List Output)
    (venv_path : String) : ProxyStateM × List Output × Option ProxyError :=
  match create_backend_instance orc step.1 venv_path with
  | .ok (s3, inst, outs2) =>
    ({ s3 with pool := s3.pool.insert_backend venv_path inst },
     step.2 ++ outs2, none)
  | .error (s3, outs2, _e) => (s3, step.2 ++ outs2, none)

def did_open_ensure (orc : Oracles) (s1 : ProxyStateM) (venv_path : String)
    (msg : RpcMessage) : ProxyStateM × List Output × Option ProxyError :=
  if (alookup s1.pool.backends venv_path).isNone then
    did_open_create orc (if s1.pool.is_full then evict_lru_backend s1 else (s1, [])) venv_path
  else
    let pool2 :=
      s1.pool.update_backend venv_path (fun inst => { inst with last_used := orc.now })
    ({ s1 with pool := pool2 }, [Output.to_backend venv_path msg], none)

/-- handle_did_open of src/proxy/document.rs (lines 26-132): resolve the
venv of the opened file, cache the document only when a string text field
is present, then ensure a backend for the venv exists in the pool (creating
one, after LRU eviction if full) or forward the notification to it.  The
error component is a propagated resolver failure. -/
def handle_did_open (orc : Oracles) (s : ProxyStateM) (msg : RpcMessage) :
    ProxyStateM × List Output × Option ProxyError :=
  match msg.params with
  | none => (s, [], none)
  | some params =>
    match params.get "textDocument" with
    | none => (s, [], none)
    | some td =>
      let text := (td.get "text").bind Json.as_str
      match (td.get "uri").bind Json.as_str with
      | none => (s, [], none)
      | some uri_str =>
        match orc.parse_url uri_str with
        | none => (s, [], none)
        | some url =>
          match orc.to_file url with
          | none => (s, [], none)
          | some file_path =>
            let language_id := ((td.get "languageId").bind Json.as_str).getD "unknown"
            let version := ((td.get "version").bind Json.as_i64).getD 0
            match orc.resolve_venv file_path with
            | .error e => (s, [], some e)
            | .ok found_venv =>
              let s1 := match text with
                | some tc =>
                  let doc : OpenDocument :=
                    { language_id := language_id, version := version,
                      text := codepoints tc, venv := found_venv }
                  { s with open_documents := ainsert s.open_documents url doc }
                | none => s
              match found_venv with
              | none => (s1, [], none)
              | some venv_path => did_open_ensure orc s1 venv_path msg

/-- C8: a didChange whose contentChanges array is empty is ignored: the
document cache and every other field of the proxy state are unchanged and
no error is raised. -/
theorem handle_did_change_empty_changes (orc : Oracles) (s : ProxyStateM)
    (msg : RpcMessage) (params : Json)
    (hp : msg.params = some params)
    (hcc : params.get "contentChanges" = some (Json.arr [])) :
    handle_did_change orc s msg = (s, none) := by
  unfold handle_did_change
  simp only [hp]
  split
  · rfl
  · split
    · rfl
    · split
      · rfl
      · rw [hcc]
        rfl

/-- Oracle instantiation for concrete witnesses: url parsing and
to_file_path are the identity, the resolver finds nothing, spawning fails,
warmup queuing is enabled. -/
def w_orc : Oracles :=
  { parse_url := fun u => some u, to_file := fun u => some u,
    resolve_venv := fun _ => .ok none, spawn_ok := fun _ => false,
    handshake_ok := fun _ => false, replay_match := fun _ _ => false,
    warmup_zero := false, now := 7 }

/-- Concrete state for witnesses: one cached document. -/
def w_state : ProxyStateM :=
  { ProxyStateM.new 8 (some 1800) with open_documents :=
      [("file:///w/a.py",
        { language_id := "python", version := 1,
          text := codepoints "x = 1\n", venv := some "/w/.venv" })] }

/-- didChange message with an empty contentChanges array. -/
def c8_msg : RpcMessage :=
  { jsonrpc := "2.0", id := none, method := some "textDocument/didChange",
    params := some (Json.obj
      [("textDocument", Json.obj
        [("uri", Json.str "file:///w/a.py"), ("version", Json.num 2)]),
       ("contentChanges", Json.arr [])]),
    result := none, error := none }

/-- Witness for C8 at a concrete cached document. -/
theorem handle_did_change_empty_changes_witness :
    handle_did_change w_orc w_state c8_msg = (w_state, none) :=
  handle_did_change_empty_changes w_orc w_state c8_msg _ rfl rfl

theorem handle_did_change_unopened (orc : Oracles) (s : ProxyStateM) (msgc : RpcMessage)
    (h : ∀ url, extract_text_document_uri orc msgc = some url →
      alookup s.open_documents url = none) :
    handle_did_change orc s msgc = (s, none) := by
  unfold handle_did_change
  split
  · rfl
  · rename_i params hp
    split
    · rfl
    · rename_i td htd
      split
      · rfl
      · rename_i uri_str hu
        split
        · rfl
        · rename_i url hpu
          have hurl : extract_text_document_uri orc msgc = some url := by
            simp only [extract_text_document_uri, Option.bind_eq_bind, Option.some_bind,
              hp, htd, hu, hpu]
          have hnone := h url hurl
          split
          · rfl
          · split
            · rfl
            · rename_i changes hca
              by_cases he : changes.isEmpty = true
              · rw [if_pos he]
              · rw [if_neg he, hnone]

theorem evict_lru_open_documents (s : ProxyStateM) :
    (evict_lru_backend s).1.open_documents = s.open_documents := by
  unfold evict_lru_backend
  split
  · rfl
  · split
    · rfl
    · rfl

theorem create_backend_go_open_documents (orc : Oracles) (s1 : ProxyStateM)
    (venv : String) (sess : Nat) (init_params : Json) :
    (match create_backend_go orc s1 venv sess init_params with
      | .ok (s3, _, _) => s3.open_documents
      | .error (s3, _, _) => s3.open_documents) = s1.open_documents := by
  unfold create_backend_go
  by_cases hh : orc.handshake_ok venv = true
  · rw [if_pos hh]
  · rw [if_neg hh]

theorem create_backend_open_documents (orc : Oracles) (s : ProxyStateM) (venv : String) :
    (match create_backend_instance orc s venv with
      | .ok (s3, _, _) => s3.open_documents
      | .error (s3, _, _) => s3.open_documents) = s.open_documents := by
  unfold create_backend_instance
  by_cases hs : orc.spawn_ok venv = true
  · rw [if_pos hs]
    cases Option.bind
        (ProxyStateM.client_initialize { s with pool := s.pool.next_session_id.2 })
        RpcMessage.params with
    | none => rfl
    | some ip =>
      exact create_backend_go_open_documents orc
        { s with pool := s.pool.next_session_id.2 } venv s.pool.next_session_id.1 ip
  · rw [if_neg hs]

theorem did_open_create_open_documents (orc : Oracles) (step : ProxyStateM × List Output)
    (venv_path : String) :
    (did_open_create orc step venv_path).1.open_documents = step.1.open_documents := by
  unfold did_open_create
  have hcr := create_backend_open_documents orc step.1 venv_path
  cases hx : create_backend_instance orc step.1 venv_path with
  | ok r =>
    obtain ⟨s3, inst, outs2⟩ := r
    rw [hx] at hcr
    simpa using hcr
  | error r =>
    obtain ⟨s3, outs2, e⟩ := r
    rw [hx] at hcr
    simpa using hcr

theorem did_open_ensure_open_documents (orc : Oracles) (s1 : ProxyStateM)
    (venv_path : String) (msg : RpcMessage) :
    (did_open_ensure orc s1 venv_path msg).1.open_documents = s1.open_documents := by
  unfold did_open_ensure
  by_cases hc : (alookup s1.pool.backends venv_path).isNone = true
  · rw [if_pos hc]
    have hstep : (if s1.pool.is_full then evict_lru_backend s1 else (s1, [])).1.open_documents
        = s1.open_documents := by
      by_cases hf : s1.pool.is_full = true
      · rw [if_pos hf]; exact evict_lru_open_documents s1
      · rw [if_neg hf]
    exact (did_open_create_open_documents orc _ venv_path).trans hstep
  · rw [if_neg hc]

/-- C10: a didOpen whose textDocument carries no string text field caches
nothing: the document cache is unchanged (although venv resolution and
backend creation still proceed), so a subsequent didChange for a URI that
was not already cached finds no document and leaves the whole state
unchanged with no error. -/
theorem handle_did_open_no_text (orc : Oracles) (s : ProxyStateM) (msg : RpcMessage)
    (params td : Json)
    (hp : msg.params = some params)
    (htd : params.get "textDocument" = some td)
    (htext : (td.get "text").bind Json.as_str = none) :
    (handle_did_open orc s msg).1.open_documents = s.open_documents ∧
    ∀ msgc : RpcMessage,
      (∀ url, extract_text_document_uri orc msgc = some url →
        alookup s.open_documents url = none) →
      handle_did_change orc (handle_did_open orc s msg).1 msgc =
        ((handle_did_open orc s msg).1, none) := by
  have hopen : (handle_did_open orc s msg).1.open_documents = s.open_documents := by
    unfold handle_did_open
    simp only [hp, htd, htext]
    split
    · rfl
    · split
      · rfl
      · split
        · rfl
        · split
          · rfl
          · split
            · rfl
            · exact did_open_ensure_open_documents orc _ _ _
  refine ⟨hopen, fun msgc hmc => ?_⟩
  apply handle_did_change_unopened
  intro url hu
  rw [hopen]
  exact hmc url hu

/-- didOpen notification carrying no text field. -/
def c10_open_msg : RpcMessage :=
  { jsonrpc := "2.0", id := none, method := some "textDocument/didOpen",
    params := some (Json.obj
      [("textDocument", Json.obj
        [("uri", Json.str "file:///w/b.py"), ("languageId", Json.str "python"),
         ("version", Json.num 1)])]),
    result := none, error := none }

/-- didChange for the URI opened without text (full-sync change). -/
def c10_change_msg : RpcMessage :=
  { jsonrpc := "2.0", id := none, method := some "textDocument/didChange",
    params := some (Json.obj
      [("textDocument", Json.obj
        [("uri", Json.str "file:///w/b.py"), ("version", Json.num 2)]),
       ("contentChanges", Json.arr [Json.obj [("text", Json.str "zz")]])]),
    result := none, error := none }

/-- Witness for C10 at a concrete state and message pair. -/
theorem handle_did_open_no_text_witness :
    (handle_did_open w_orc w_state c10_open_msg).1.open_documents = w_state.open_documents ∧
    handle_did_change w_orc (handle_did_open w_orc w_state c10_open_msg).1 c10_change_msg =
      ((handle_did_open w_orc w_state c10_open_msg).1, none) := by
  have h := handle_did_open_no_text w_orc w_state c10_open_msg _ _ rfl rfl rfl
  refine ⟨h.1, h.2 c10_change_msg ?_⟩
  intro url hu
  have hx : some "file:///w/b.py" = some url := hu
  cases hx
  rfl

/-- INDEX_DEPENDENT_METHODS of src/proxy/client_dispatch.rs (lines 11-17):
the methods queued during warmup. -/
def index_dependent_methods : List String :=
  ["textDocument/definition", "textDocument/references",
   "textDocument/implementation", "textDocument/typeDefinition"]

/-- VENV_CHECK_METHODS of src/proxy/client_dispatch.rs (lines 218-225):
the methods that force a backend into the pool before routing. -/
def venv_check_methods : List String :=
  ["textDocument/hover", "textDocument/definition", "textDocument/references",
   "textDocument/documentSymbol", "textDocument/typeDefinition",
   "textDocument/implementation"]

/-- The strict-mode error message (venv not resolvable). -/
def strict_mode_msg : String :=
  "lsp-proxy: .venv not found (strict mode). Create .venv or run hooks."

/-- Error message when the backend raced away between resolution and send. -/
def backend_unavailable_msg : String := "lsp-proxy: backend not available"

/-- Error message for a non-file URI (the source formats the URI in). -/
def non_file_uri_msg (u : String) : String :=
  "lsp-proxy: cannot resolve venv for non-file URI: " ++ u

/-- Error message when ensure_backend_in_pool fails (source formats the
underlying error in; elided here). -/
def backend_error_msg : String := "lsp-proxy: backend error"

/-- Error message for a URI-less request with multiple backends active
(the source formats the method name in). -/
def cannot_route_msg (m : String) : String :=
  "lsp-proxy: cannot route without a document URI (multiple backends active): " ++ m

/-- Creation tail of ensure_backend_in_pool: create an instance on top of
the possibly-evicted state and insert it; a creation failure is the Err of
the Rust function. -/
def ensure_create (orc : Oracles) (step : ProxyStateM × List Output) (v : String) :
    ProxyStateM × List Output × Except ProxyError (Option String) :=
  match create_backend_instance orc step.1 v with
  | .ok (s3, inst, outs2) =>
    ({ s3 with pool := s3.pool.insert_backend v inst }, step.2 ++ outs2, .ok (some v))
  | .error (s3, outs2, e) => (s3, step.2 ++ outs2, .error e)

/-- Modelled from the spec: ensure_backend_in_pool of the pool_management
module (not under src).  Per the spec: determine the target venv cache
first, else by the resolver; if a backend for it is already in the pool
return it; otherwise evict the LRU when full, create an instance and insert
it.  The third component is the Result of the Rust function. -/
def ensure_backend_in_pool (orc : Oracles) (s : ProxyStateM) (uri : String)
    (file_path : String) : ProxyStateM × List Output × Except ProxyError (Option String) :=
  let target : Except ProxyError (Option String) :=
    match venv_for_uri s uri with
    | some v => .ok (some v)
    | none => orc.resolve_venv file_path
  match target with
  | .error e => (s, [], .error e)
  | .ok none => (s, [], .ok none)
  | .ok (some v) =>
    if (alookup s.pool.backends v).isSome then (s, [], .ok (some v))
    else ensure_create orc (if s.pool.is_full then evict_lru_backend s else (s, [])) v

/-- Target branch of dispatch_client_request of src/proxy/client_dispatch.rs
(lines 332-380): touch last_used; during warmup an index-dependent request
is registered in the pending table and appended to the warmup queue without
being written; any other request is registered and written to the backend;
a vanished backend yields the not-available error reply. -/
def send_to_target (orc : Oracles) (s : ProxyStateM) (msg : RpcMessage)
    (venv_path : String) : ProxyStateM × List Output :=
  match alookup s.pool.backends venv_path with
  | none => (s, [Output.to_client (RpcMessage.error_response msg backend_unavailable_msg)])
  | some inst =>
    let inst1 := { inst with last_used := orc.now }
    let session := inst.session
    let queue_it : Bool := match msg.method with
      | some m => inst1.is_warming && index_dependent_methods.contains m
      | none => false
    let entry : PendingRequest := { backend_session := session, venv_path := venv_path }
    if queue_it then
      let s1 := match msg.id with
        | some i => { s with pending_requests := ainsert s.pending_requests i entry }
        | none => s
      let inst2 := { inst1 with warmup_queue := inst1.warmup_queue ++ [msg] }
      ({ s1 with pool := s1.pool.update_backend venv_path (fun _ => inst2) }, [])
    else
      let s1 := match msg.id with
        | some i => { s with pending_requests := ainsert s.pending_requests i entry }
        | none => s
      ({ s1 with pool := s1.pool.update_backend venv_path (fun _ => inst1) },
       [Output.to_backend venv_path msg])

/-- forward_to_first_backend of src/proxy/client_dispatch.rs (lines
417-438): touch the first backend, register the request in the pending
table and write it there. -/
def forward_to_first_backend (orc : Oracles) (s : ProxyStateM) (msg : RpcMessage) :
    ProxyStateM × List Output :=
  match s.pool.first_key with
  | none => (s, [])
  | some venv_path =>
    match alookup s.pool.backends venv_path with
    | none => (s, [])
    | some inst =>
      let inst1 := { inst with last_used := orc.now }
      let session := inst.session
      let entry : PendingRequest := { backend_session := session, venv_path := venv_path }
      let s1 := match msg.id with
        | some i => { s with pending_requests := ainsert s.pending_requests i entry }
        | none => s
      ({ s1 with pool := s1.pool.update_backend venv_path (fun _ => inst1) },
       [Output.to_backend venv_path msg])

/-- Final branch of dispatch_client_request of src/proxy/client_dispatch.rs
(lines 381-408), reached when no target venv was resolved: empty pool gives
the strict-mode internal error, a single backend receives the request, and
with several backends the request is rejected with an internal error. -/
def dispatch_no_target (orc : Oracles) (s : ProxyStateM) (msg : RpcMessage) :
    ProxyStateM × List Output :=
  if s.pool.backends.isEmpty then
    (s, [Output.to_client (RpcMessage.error_response msg strict_mode_msg)])
  else if s.pool.backends.length = 1 then
    forward_to_first_backend orc s msg
  else
    (s, [Output.to_client (RpcMessage.error_response msg
      (cannot_route_msg (msg.method_name.getD "")))])

/-- Phase two of dispatch_client_request (lines 269-329 and 331-408): with
no target yet, try the cache for a URI-bearing request, then full
resolution (a non-file URI is an internal error); a resolved target goes to
send_to_target and a URI-less request to the pool-size fallback. -/
def dispatch_after_resolve (orc : Oracles) (s : ProxyStateM) (msg : RpcMessage)
    (target : Option String) : ProxyStateM × List Output :=
  match target with
  | some v => send_to_target orc s msg v
  | none =>
    match extract_text_document_uri orc msg with
    | some u =>
      match venv_for_uri s u with
      | some v => send_to_target orc s msg v
      | none =>
        match orc.to_file u with
        | none => (s, [Output.to_client (RpcMessage.error_response msg (non_file_uri_msg u))])
        | some p =>
          match ensure_backend_in_pool orc s u p with
          | (s1, outs, .ok (some v)) =>
            let r := send_to_target orc s1 msg v
            (r.1, outs ++ r.2)
          | (s1, outs, .ok none) =>
            (s1, outs ++ [Output.to_client (RpcMessage.error_response msg strict_mode_msg)])
          | (s1, outs, .error _) =>
            (s1, outs ++ [Output.to_client (RpcMessage.error_response msg backend_error_msg)])
    | none => dispatch_no_target orc s msg

/-- dispatch_client_request of src/proxy/client_dispatch.rs (lines
213-411): for the venv-check methods ensure the backend is in the pool
first (surfacing strict-mode or backend errors), then route. -/
def dispatch_client_request (orc : Oracles) (s : ProxyStateM) (msg : RpcMessage) :
    ProxyStateM × List Output :=
  match msg.method with
  | some m =>
    if venv_check_methods.contains m then
      match extract_text_document_uri orc msg with
      | some u =>
        match orc.to_file u with
        | some p =>
          match ensure_backend_in_pool orc s u p with
          | (s1, outs, .ok (some v)) =>
            let r := dispatch_after_resolve orc s1 msg (some v)
            (r.1, outs ++ r.2)
          | (s1, outs, .ok none) =>
            (s1, outs ++ [Output.to_client (RpcMessage.error_response msg strict_mode_msg)])
          | (s1, outs, .error _) =>
            (s1, outs ++ [Output.to_client (RpcMessage.error_response msg backend_error_msg)])
        | none => dispatch_after_resolve orc s msg none
      | none => dispatch_after_resolve orc s msg none
    else dispatch_after_resolve orc s msg none
  | none => dispatch_after_resolve orc s msg none

theorem dispatch_uriless_reduces (orc : Oracles) (s : ProxyStateM) (msg : RpcMessage)
    (hu : extract_text_document_uri orc msg = none) :
    dispatch_client_request orc s msg = dispatch_no_target orc s msg := by
  have ha : dispatch_after_resolve orc s msg none = dispatch_no_target orc s msg := by
    unfold dispatch_after_resolve
    rw [hu]
  unfold dispatch_client_request
  split
  · rename_i m hm
    by_cases hv : venv_check_methods.contains m = true
    · rw [if_pos hv, hu]
      exact ha
    · rw [if_neg hv]
      exact ha
  · exact ha

/-- C1: for a client request carrying no textDocument URI (so no target
venv is resolvable), the reply depends only on the pool size: an empty pool
yields the strict-mode internal error (-32603); exactly one backend means
the request is forwarded there and registered in the pending table; more
than one backend yields an internal error and the request reaches no
backend. -/
theorem dispatch_client_request_no_target (orc : Oracles) (s : ProxyStateM)
    (msg : RpcMessage) (i : RpcId)
    (hu : extract_text_document_uri orc msg = none)
    (hid : msg.id = some i) :
    (s.pool.backends = [] →
      dispatch_client_request orc s msg =
        (s, [Output.to_client (RpcMessage.error_response msg strict_mode_msg)])) ∧
    (∀ v inst, s.pool.backends = [(v, inst)] →
      dispatch_client_request orc s msg =
        ({ s with
            pending_requests := ainsert s.pending_requests i
              { backend_session := inst.session, venv_path := v },
            pool := { s.pool with backends := [(v, { inst with last_used := orc.now })] } },
         [Output.to_backend v msg])) ∧
    (2 ≤ s.pool.backends.length →
      dispatch_client_request orc s msg =
        (s, [Output.to_client (RpcMessage.error_response msg
          (cannot_route_msg (msg.method_name.getD "")))])) ∧
    (∀ m : String, (RpcMessage.error_response msg m).error =
      some { code := -32603, message := m, data := none }) := by
  rw [dispatch_uriless_reduces orc s msg hu]
  refine ⟨fun hempty => ?_, fun v inst hone => ?_, fun hmany => ?_, fun m => rfl⟩
  · unfold dispatch_no_target
    rw [hempty]
    rfl
  · have hfk : s.pool.first_key = some v := by
      unfold BackendPoolM.first_key; rw [hone]; rfl
    have hal : alookup s.pool.backends v = some inst := by
      rw [hone]; simp [alookup]
    have hne : s.pool.backends.isEmpty = false := by rw [hone]; rfl
    have hl1 : s.pool.backends.length = 1 := by rw [hone]; rfl
    unfold dispatch_no_target
    rw [hne, hl1]
    simp only [Bool.false_eq_true, if_false, if_pos rfl]
    unfold forward_to_first_backend
    simp only [hfk, hal, hid, BackendPoolM.update_backend, hone]
    simp [ainsert, alookup]
  · unfold dispatch_no_target
    have hne : s.pool.backends.isEmpty = false := by
      cases hb : s.pool.backends with
      | nil => rw [hb] at hmany; simp at hmany
      | cons a l => rfl
    have hlen : ¬(s.pool.backends.length = 1) := by omega
    rw [hne]
    simp only [if_neg (by simp : ¬(false = true)), if_neg hlen]

theorem contains_true_iff (l : List String) (a : String) :
    l.contains a = true ↔ a ∈ l := by
  induction l with
  | nil => simp
  | cons b r ih =>
    constructor
    · intro h
      rcases List.contains_iff_exists_mem_beq.mp h with ⟨c, hc, he⟩
      exact (eq_of_beq he) ▸ hc
    · intro h
      exact List.contains_iff_exists_mem_beq.mpr ⟨a, h, by simp⟩

theorem dispatch_cached_target_reduces (orc : Oracles) (s : ProxyStateM)
    (msg : RpcMessage) (m u v : String)
    (hm : msg.method = some m)
    (hu : extract_text_document_uri orc msg = some u)
    (hv : venv_for_uri s u = some v)
    (hp : (alookup s.pool.backends v).isSome = true) :
    dispatch_client_request orc s msg = send_to_target orc s msg v := by
  have hafter_none : dispatch_after_resolve orc s msg none = send_to_target orc s msg v := by
    simp only [dispatch_after_resolve, hu, hv]
  have hens : ∀ p, ensure_backend_in_pool orc s u p = (s, [], .ok (some v)) := by
    intro p
    simp only [ensure_backend_in_pool, hv]
    rw [if_pos hp]
  unfold dispatch_client_request
  split
  · rename_i m2 hm2
    rw [hm] at hm2
    cases hm2
    by_cases hvc : venv_check_methods.contains m = true
    · rw [if_pos hvc]
      simp only [hu]
      cases hf : orc.to_file u with
      | none =>
        simp only [hf]
        exact hafter_none
      | some p =>
        simp only [hf, hens p, List.nil_append]
        simp only [dispatch_after_resolve]
    · rw [if_neg hvc]
      exact hafter_none
  · rename_i hm2
    rw [hm] at hm2
    cases hm2

/-- C3: a routed client request whose target backend is Warming is, for the
four index-dependent methods, appended to that backend warmup queue and
registered in the pending table without being written to the backend; for
every other method (hover and documentSymbol included) it is registered in
the pending table and written to the backend immediately. -/
theorem dispatch_client_request_warming (orc : Oracles) (s : ProxyStateM)
    (msg : RpcMessage) (m u v : String) (inst : BackendInstanceM) (i : RpcId)
    (hm : msg.method = some m)
    (hu : extract_text_document_uri orc msg = some u)
    (hv : venv_for_uri s u = some v)
    (hp : alookup s.pool.backends v = some inst)
    (hw : inst.warmup_state = .warming)
    (hid : msg.id = some i) :
    (m ∈ index_dependent_methods →
      dispatch_client_request orc s msg =
        ({ s with
            pending_requests := ainsert s.pending_requests i (PendingRequest.mk inst.session v),
            pool := s.pool.update_backend v (fun _ =>
              { inst with
                  last_used := orc.now,
                  warmup_queue := inst.warmup_queue ++ [msg] }) }, [])) ∧
    (m ∉ index_dependent_methods →
      dispatch_client_request orc s msg =
        ({ s with
            pending_requests := ainsert s.pending_requests i (PendingRequest.mk inst.session v),
            pool := s.pool.update_backend v (fun _ => { inst with last_used := orc.now }) },
         [Output.to_backend v msg])) := by
  have hred := dispatch_cached_target_reduces orc s msg m u v hm hu hv (by rw [hp]; rfl)
  constructor
  · intro hmem
    have hc : index_dependent_methods.contains m = true :=
      (contains_true_iff index_dependent_methods m).mpr hmem
    rw [hred]
    unfold send_to_target
    simp only [hp, hm, hid, BackendInstanceM.is_warming, hw, hc]
    rfl
  · intro hmem
    have hc : index_dependent_methods.contains m = false := by
      cases hcc : index_dependent_methods.contains m with
      | false => rfl
      | true => exact absurd ((contains_true_iff index_dependent_methods m).mp hcc) hmem
    rw [hred]
    unfold send_to_target
    simp only [hp, hm, hid, BackendInstanceM.is_warming, hw, hc]
    rfl

/-- A warming backend at the witness venv, session 1. -/
def c3_inst : BackendInstanceM :=
  { venv_path := "/w/.venv", session := 1, last_used := 0, next_id := 2,
    warmup_state := .warming, warmup_queue := [] }

/-- Witness state: the cached document plus its warming backend in the pool. -/
def c3_state : ProxyStateM :=
  { w_state with pool := { w_state.pool with backends := [("/w/.venv", c3_inst)] } }

/-- URI-less request used for the C1 witness. -/
def c1_msg : RpcMessage :=
  { jsonrpc := "2.0", id := some (RpcId.num 9), method := some "workspace/executeCommand",
    params := none, result := none, error := none }

/-- Witness for C1: with exactly one backend in the pool, the URI-less
request is forwarded there and registered in the pending table. -/
theorem dispatch_client_request_no_target_witness :
    dispatch_client_request w_orc c3_state c1_msg =
      ({ c3_state with
          pending_requests := ainsert c3_state.pending_requests (RpcId.num 9)
            { backend_session := c3_inst.session, venv_path := "/w/.venv" },
          pool := { c3_state.pool with backends :=
            [("/w/.venv", { c3_inst with last_used := w_orc.now })] } },
       [Output.to_backend "/w/.venv" c1_msg]) :=
  (dispatch_client_request_no_target w_orc c3_state c1_msg (RpcId.num 9) rfl rfl).2.1
    "/w/.venv" c3_inst rfl

/-- Index-dependent request (definition) for the C3 witness. -/
def c3_def_msg : RpcMessage :=
  { jsonrpc := "2.0", id := some (RpcId.num 3), method := some "textDocument/definition",
    params := some (Json.obj [("textDocument", Json.obj [("uri", Json.str "file:///w/a.py")])]),
    result := none, error := none }

/-- Hover request (not index-dependent) for the C3 witness. -/
def c3_hover_msg : RpcMessage :=
  { jsonrpc := "2.0", id := some (RpcId.num 4), method := some "textDocument/hover",
    params := some (Json.obj [("textDocument", Json.obj [("uri", Json.str "file:///w/a.py")])]),
    result := none, error := none }

/-- Witness for C3: on the warming backend, the definition request is
queued (no backend write) while the hover request is written immediately;
both land in the pending table. -/
theorem dispatch_client_request_warming_witness :
    dispatch_client_request w_orc c3_state c3_def_msg =
      ({ c3_state with
          pending_requests := ainsert c3_state.pending_requests (RpcId.num 3)
            (PendingRequest.mk c3_inst.session "/w/.venv"),
          pool := c3_state.pool.update_backend "/w/.venv" (fun _ =>
            { c3_inst with
                last_used := w_orc.now,
                warmup_queue := c3_inst.warmup_queue ++ [c3_def_msg] }) }, []) ∧
    dispatch_client_request w_orc c3_state c3_hover_msg =
      ({ c3_state with
          pending_requests := ainsert c3_state.pending_requests (RpcId.num 4)
            (PendingRequest.mk c3_inst.session "/w/.venv"),
          pool := c3_state.pool.update_backend "/w/.venv"
            (fun _ => { c3_inst with last_used := w_orc.now }) },
       [Output.to_backend "/w/.venv" c3_hover_msg]) :=
  ⟨(dispatch_client_request_warming w_orc c3_state c3_def_msg _ _ _ c3_inst _
      rfl rfl rfl rfl rfl rfl).1 (by decide),
   (dispatch_client_request_warming w_orc c3_state c3_hover_msg _ _ _ c3_inst _
      rfl rfl rfl rfl rfl rfl).2 (by decide)⟩

/-- extract_cancel_id of src/proxy/client_dispatch.rs (lines 558-567): the
target id of a cancelRequest, integer first, else string. -/
def extract_cancel_id (msg : RpcMessage) : Option RpcId :=
  match msg.params with
  | none => none
  | some params =>
    match params.get "id" with
    | none => none
    | some idv =>
      match idv.as_i64 with
      | some n => some (RpcId.num n)
      | none => (idv.as_str).map RpcId.str

/-- Remove the first element satisfying p; none when no element does. -/
def remove_first_by (p : RpcMessage → Bool) : List RpcMessage → Option (List RpcMessage)
  | [] => none
  | r :: rest =>
    if p r then some rest else (remove_first_by p rest).map (r :: ·)

/-- Modelled from the spec: cancel_warmup_request of the warmup-aware
BackendInstance (its backend_pool source is not under src).  Per the spec
the cancel path removes the queued request with the target id precisely;
the result is some exactly when a queued request carried that id. -/
def cancel_warmup_request (inst : BackendInstanceM) (id : RpcId) : Option BackendInstanceM :=
  (remove_first_by (fun r => decide (r.id = some id)) inst.warmup_queue).map
    (fun q => { inst with warmup_queue := q })

/-- dispatch_client_notification of src/proxy/client_dispatch.rs (lines
443-457): forward the notification to every backend in the pool. -/
def dispatch_client_notification (s : ProxyStateM) (msg : RpcMessage) :
    ProxyStateM × List Output :=
  (s, s.pool.backends.map (fun e => Output.to_backend e.1 msg))

/-- dispatch_cancel_request of src/proxy/client_dispatch.rs (lines
463-487): when the target id is recorded in the pending table, its backend
is still the same session and the id sits in that warmup queue, drop it
from the queue and the pending table and send nothing; otherwise broadcast
the cancel notification to all backends. -/
def dispatch_cancel_request (s : ProxyStateM) (msg : RpcMessage) :
    ProxyStateM × List Output :=
  match extract_cancel_id msg with
  | none => dispatch_client_notification s msg
  | some cid =>
    match alookup s.pending_requests cid with
    | none => dispatch_client_notification s msg
    | some pending =>
      match alookup s.pool.backends pending.venv_path with
      | none => dispatch_client_notification s msg
      | some inst =>
        if inst.session = pending.backend_session then
          match cancel_warmup_request inst cid with
          | some inst2 =>
            ({ s with
                pool := s.pool.update_backend pending.venv_path (fun _ => inst2),
                pending_requests := aerase s.pending_requests cid }, [])
          | none => dispatch_client_notification s msg
        else dispatch_client_notification s msg

/-- C4: a cancelRequest whose target id is queued in the warmup queue of
the backend recorded for it in the pending table, with that backend session
unchanged, removes the request from the queue and the pending table and
sends nothing to any backend; in every other case the notification is
forwarded to all backends in the pool. -/
theorem dispatch_cancel_request_spec (s : ProxyStateM) (msg : RpcMessage) :
    (∀ cid p inst inst2,
      extract_cancel_id msg = some cid →
      alookup s.pending_requests cid = some p →
      alookup s.pool.backends p.venv_path = some inst →
      inst.session = p.backend_session →
      cancel_warmup_request inst cid = some inst2 →
      dispatch_cancel_request s msg =
        ({ s with
            pool := s.pool.update_backend p.venv_path (fun _ => inst2),
            pending_requests := aerase s.pending_requests cid }, [])) ∧
    ((¬ ∃ cid p inst inst2,
        extract_cancel_id msg = some cid ∧
        alookup s.pending_requests cid = some p ∧
        alookup s.pool.backends p.venv_path = some inst ∧
        inst.session = p.backend_session ∧
        cancel_warmup_request inst cid = some inst2) →
      dispatch_cancel_request s msg =
        (s, s.pool.backends.map (fun e => Output.to_backend e.1 msg))) := by
  constructor
  · intro cid p inst inst2 h1 h2 h3 h4 h5
    unfold dispatch_cancel_request
    simp only [h1, h2, h3]
    rw [if_pos h4]
    simp only [h5]
  · intro hneg
    unfold dispatch_cancel_request
    split
    · rfl
    · rename_i cid h1
      split
      · rfl
      · rename_i p h2
        split
        · rfl
        · rename_i inst h3
          by_cases h4 : inst.session = p.backend_session
          · rw [if_pos h4]
            split
            · rename_i inst2 h5
              exact absurd ⟨cid, p, inst, inst2, h1, h2, h3, h4, h5⟩ hneg
            · rfl
          · rw [if_neg h4]
            rfl

/-- Warming backend whose warmup queue holds the definition request. -/
def c4_inst : BackendInstanceM :=
  { venv_path := "/w/.venv", session := 1, last_used := 0, next_id := 2,
    warmup_state := .warming, warmup_queue := [c3_def_msg] }

/-- Witness state for C4: the queued request is pending against the
backend session currently in the pool. -/
def c4_state : ProxyStateM :=
  { w_state with
      pending_requests := [(RpcId.num 3, PendingRequest.mk 1 "/w/.venv")],
      pool := { w_state.pool with backends := [("/w/.venv", c4_inst)] } }

/-- cancelRequest notification targeting id 3. -/
def c4_cancel_msg : RpcMessage :=
  { jsonrpc := "2.0", id := none, method := some "$/cancelRequest",
    params := some (Json.obj [("id", Json.num 3)]), result := none, error := none }

/-- Witness for C4: the queued request with id 3 is dropped from the queue
and from the pending table and no backend receives anything. -/
theorem dispatch_cancel_request_spec_witness :
    dispatch_cancel_request c4_state c4_cancel_msg =
      ({ c4_state with
          pool := c4_state.pool.update_backend "/w/.venv"
            (fun _ => { c4_inst with warmup_queue := [] }),
          pending_requests := aerase c4_state.pending_requests (RpcId.num 3) }, []) :=
  (dispatch_cancel_request_spec c4_state c4_cancel_msg).1 (RpcId.num 3)
    (PendingRequest.mk 1 "/w/.venv") c4_inst { c4_inst with warmup_queue := [] }
    rfl rfl rfl rfl rfl

/-- Inbox message of src/backend_pool.rs BackendMessage: the (venv,
session) tag and either a received frame or a read error (the error
payload, an io error, carries no information used by the loop). -/
structure BackendMessage where
  venv_path : String
  session : Nat
  result : Except Unit RpcMessage

/-- cancel_pending_requests_for_session of src/proxy.rs (lines 1089-1123):
remove every pending client-to-backend entry bound to the session and send
each client a reply with the protocol cancel code -32800. -/
def cancel_pending_requests_for_session (s : ProxyStateM) (old_session : Nat) :
    ProxyStateM × List Output :=
  let to_cancel := s.pending_requests.filter (fun p => p.2.backend_session == old_session)
  ({ s with pending_requests :=
      s.pending_requests.filter (fun p => !(p.2.backend_session == old_session)) },
   to_cancel.map (fun p =>
     Output.to_client (request_cancelled_response p.1 "Request cancelled due to backend restart")))

/-- Modelled from the spec: handle_backend_crash of the pool_management
module (not under src).  Per the spec crash section: verify the pool still
holds that session; if so remove the instance, cancel the pending requests
of that session with the protocol cancel code (the in-src
cancel_pending_requests_for_session), drop the pending backend-to-client
entries of the pair, publish empty diagnostics for the documents bound to
the venv, and abort the reader task (a process effect with no state). -/
def handle_backend_crash (s : ProxyStateM) (venv_path : String) (session : Nat) :
    ProxyStateM × List Output :=
  match alookup s.pool.backends venv_path with
  | none => (s, [])
  | some inst =>
    if inst.session = session then
      let s1 := { s with pool := s.pool.remove_backend venv_path }
      let r := cancel_pending_requests_for_session s1 session
      let pbr := r.1.pending_backend_requests.filter
        (fun p => !(p.2.venv_path == venv_path && p.2.session == session))
      let s2 := { r.1 with pending_backend_requests := pbr }
      let diag := s.open_documents.filterMap
        (fun e => if e.2.venv = some venv_path
          then some (Output.to_client (empty_diagnostics e.1)) else none)
      (s2, r.2 ++ diag)
    else (s, [])

/-- The stale check of the event loop (src/proxy/mod.rs lines 417-420):
the tag is current when the pool holds the venv at the same session. -/
def pool_session_current (s : ProxyStateM) (venv : String) (session : Nat) : Bool :=
  match alookup s.pool.backends venv with
  | some inst => inst.session == session
  | none => false

/-- Backend-inbox branch of run of src/proxy/mod.rs (lines 414-511): drop
stale-tagged messages; re-emit backend requests under a fresh proxy id;
discard responses whose pending entry names another (venv, session),
removing the entry; forward everything else to the client; a read error is
the crash path. -/
def handle_backend_message (s : ProxyStateM) (bm : BackendMessage) :
    ProxyStateM × List Output :=
  if pool_session_current s bm.venv_path bm.session then
    match bm.result with
    | .ok msg =>
      if msg.is_request then
        match msg.id with
        | some original_id =>
          let (proxy_id, s1) := alloc_proxy_request_id s
          let pending := PendingBackendRequest.mk original_id bm.venv_path bm.session
          let pb := ainsert s1.pending_backend_requests proxy_id pending
          let s2 := { s1 with pending_backend_requests := pb }
          (s2, [Output.to_client { msg with id := some proxy_id }])
        | none => (s, [Output.to_client msg])
      else if msg.is_response then
        match msg.id with
        | some rid =>
          match alookup s.pending_requests rid with
          | some pending =>
            if pending.backend_session ≠ bm.session ∨ pending.venv_path ≠ bm.venv_path then
              ({ s with pending_requests := aerase s.pending_requests rid }, [])
            else
              ({ s with pending_requests := aerase s.pending_requests rid },
               [Output.to_client msg])
          | none =>
            ({ s with pending_requests := aerase s.pending_requests rid },
             [Output.to_client msg])
        | none => (s, [Output.to_client msg])
      else (s, [Output.to_client msg])
    | .error _ => handle_backend_crash s bm.venv_path bm.session
  else (s, [])

/-- C5: the proxy never forwards a stale backend response to the client:
an inbox message whose (venv, session) tag is not the pool current entry
for that venv is discarded outright, and a response whose pending entry
records a different (venv, session) than the tag is discarded with its
pending entry removed, in every state of the event loop. -/
theorem handle_backend_message_stale (s : ProxyStateM) (bm : BackendMessage) :
    (pool_session_current s bm.venv_path bm.session = false →
      handle_backend_message s bm = (s, [])) ∧
    (∀ msg rid pending,
      pool_session_current s bm.venv_path bm.session = true →
      bm.result = .ok msg →
      msg.is_response = true →
      msg.id = some rid →
      alookup s.pending_requests rid = some pending →
      (pending.backend_session ≠ bm.session ∨ pending.venv_path ≠ bm.venv_path) →
      handle_backend_message s bm =
        ({ s with pending_requests := aerase s.pending_requests rid }, [])) := by
  constructor
  · intro hcur
    unfold handle_backend_message
    rw [hcur]
    rfl
  · intro msg rid pending hcur hok hresp hid hpend hmis
    have hmeth : msg.method = none := by
      cases hm2 : msg.method with
      | none => rfl
      | some m =>
        rw [RpcMessage.is_response, hm2] at hresp
        simp at hresp
    have hreq : msg.is_request = false := by
      rw [RpcMessage.is_request, hmeth]
      simp
    unfold handle_backend_message
    rw [hcur]
    simp only [hok, hreq, hresp, hid, hpend, Bool.false_eq_true, if_false, if_true]
    rw [if_pos hmis]

/-- Ready backend at session 2 for the C5 witness. -/
def c5_inst : BackendInstanceM :=
  { venv_path := "/w/.venv", session := 2, last_used := 0, next_id := 2,
    warmup_state := .ready, warmup_queue := [] }

/-- Witness state for C5: the pending entry for id 5 records session 1 of
the venv while the pool is already at session 2. -/
def c5_state : ProxyStateM :=
  { w_state with
      pending_requests := [(RpcId.num 5, PendingRequest.mk 1 "/w/.venv")],
      pool := { w_state.pool with backends := [("/w/.venv", c5_inst)] } }

/-- Response frame with id 5. -/
def c5_resp : RpcMessage :=
  { jsonrpc := "2.0", id := some (RpcId.num 5), method := none,
    params := none, result := some Json.null, error := none }

/-- The response arriving tagged (venv, session 2). -/
def c5_bm : BackendMessage :=
  { venv_path := "/w/.venv", session := 2, result := .ok c5_resp }

/-- Witness for C5: the mismatched response is discarded (no client
output) and its pending entry removed. -/
theorem handle_backend_message_stale_witness :
    handle_backend_message c5_state c5_bm =
      ({ c5_state with pending_requests := aerase c5_state.pending_requests (RpcId.num 5) },
       []) :=
  (handle_backend_message_stale c5_state c5_bm).2 _ (RpcId.num 5)
    (PendingRequest.mk 1 "/w/.venv") rfl rfl rfl rfl rfl (Or.inl (by decide))

/-- State after n successive proxy-id allocations. -/
def alloc_iter (s : ProxyStateM) : Nat → ProxyStateM
  | 0 => s
  | n + 1 => (alloc_proxy_request_id (alloc_iter s n)).2

/-- The id produced by the (n+1)-th allocation. -/
def nth_alloc_id (s : ProxyStateM) (n : Nat) : RpcId :=
  (alloc_proxy_request_id (alloc_iter s n)).1

theorem alloc_iter_counter (mb : Nat) (ttl : Option Nat) (n : Nat) :
    (alloc_iter (ProxyStateM.new mb ttl) n).next_proxy_request_id = -1 - n := by
  induction n with
  | zero => simp [alloc_iter, ProxyStateM.new]
  | succ n ih =>
    show (alloc_proxy_request_id (alloc_iter (ProxyStateM.new mb ttl) n)).2.next_proxy_request_id
      = -1 - (n + 1 : Nat)
    rw [alloc_proxy_request_id]
    simp only [ih]
    push_cast
    ring

/-- C6: proxy-allocated ids form the sequence -1, -2, ...: each id emitted
toward the client when re-emitting a backend-originated request is the
allocator output at the current state (the running counter), every
allocated id is a negative integer, and over any sequence of allocations
each id is strictly below every earlier one. -/
theorem alloc_proxy_request_id_spec (mb : Nat) (ttl : Option Nat) (n m : Nat)
    (h : m < n) :
    nth_alloc_id (ProxyStateM.new mb ttl) n = RpcId.num (-1 - n) ∧
    nth_alloc_id (ProxyStateM.new mb ttl) m = RpcId.num (-1 - m) ∧
    (-1 - (n : Int)) < 0 ∧ (-1 - (n : Int)) < (-1 - (m : Int)) ∧
    (∀ s bm msg oid,
      pool_session_current s bm.venv_path bm.session = true →
      bm.result = .ok msg →
      msg.is_request = true →
      msg.id = some oid →
      (handle_backend_message s bm).2 =
        [Output.to_client { msg with id := some (RpcId.num s.next_proxy_request_id) }]) := by
  refine ⟨?_, ?_, by omega, ?_, ?_⟩
  · show (alloc_proxy_request_id (alloc_iter (ProxyStateM.new mb ttl) n)).1 = RpcId.num (-1 - n)
    rw [alloc_proxy_request_id, alloc_iter_counter]
  · show (alloc_proxy_request_id (alloc_iter (ProxyStateM.new mb ttl) m)).1 = RpcId.num (-1 - m)
    rw [alloc_proxy_request_id, alloc_iter_counter]
  · have hmn : (m : Int) < n := by exact_mod_cast h
    omega
  · intro s bm msg oid hcur hok hreq hid
    unfold handle_backend_message
    rw [hcur]
    simp only [hok, hreq, hid, if_true]
    rfl

/-- Witness for C6: the second allocation from a fresh state yields -2,
negative and strictly below the first allocation -1. -/
theorem alloc_proxy_request_id_spec_witness :
    nth_alloc_id (ProxyStateM.new 8 none) 1 = RpcId.num (-2) ∧
    nth_alloc_id (ProxyStateM.new 8 none) 0 = RpcId.num (-1) ∧
    ((-2 : Int) < 0 ∧ (-2 : Int) < -1) := by
  have h := alloc_proxy_request_id_spec 8 none 1 0 (by decide)
  exact ⟨by simpa using h.1, by simpa using h.2.1, by decide, by decide⟩
